import Mathlib

/-!
Shallow embedding of the page-conversion worker `PdfProcessingThread`
from `PDFtoImage.py` (the `run` method, lines 28-102), together with
theorems settling the specification claims about it.

Modelling conventions:
* Calls into the environment (`os.path.exists`, `os.makedirs`, `fitz.open`,
  per-page `load_page`/`get_pixmap`/`Image.frombytes`/`save`) are abstracted
  as data carried by a `RunEnv`: each call's outcome (success, caught
  per-page exception, or run-fatal exception) is an input of the model.
* The cross-thread flag `_is_interruption_requested` starts `False` and is
  only ever set to `True` (by `request_interruption_sync`), so the sequence
  of values it yields to the worker's reads is monotone.  The worker reads
  it once per loop iteration (read index `i` at the check for page `i`) and
  then at the two `elif` guards after the loop (read indices `total` and
  `total + 1`).  We model it by `cancelAt : Option Nat`, the index of the
  first read that observes `True` (`none` when the flag is never set).
* The Python failure entry is the string `f"Page {i+1}: {e_save}"`; we keep
  its two components as the pair `(i + 1, e_save)` and provide
  `errorDetail` rendering the exact string.
* A call to `pil_image.save(path)` that succeeds is recorded in the trace
  as the pair `(i, filename)` (loop index and the file name that is joined
  to `output_directory` by `os.path.join`).
-/

namespace PDFtoImage

/-- Outcome of the body of one loop iteration for page `i` (lines 60-79):
`ok` means render and `pil_image.save` both succeed; `saveErr m` means
`pil_image.save` raises an exception with text `m`, caught by the inner
`try` (lines 71-79); `fatal m` means `load_page` / `get_pixmap` /
`Image.frombytes` raises with text `m`, caught only by the outer `except`
(line 83). -/
inductive PageResult where
  | ok : PageResult
  | saveErr : String → PageResult
  | fatal : String → PageResult
deriving DecidableEq

/-- The three Qt signals of `PdfProcessingThread` (lines 13-15), as events:
`progress_update`, `total_pages_known`, `finished_conversion`. -/
inductive Event where
  | totalPagesKnown : Nat → Event
  | progressUpdate : Nat → Event
  | finishedConversion : String → Bool → List (Nat × String) → Event
deriving DecidableEq

/-- The worker-local loop state: `converted_count` (line 43) and
`page_save_errors` (line 30). -/
structure LoopState where
  converted : Nat
  errors : List (Nat × String)
deriving DecidableEq

/-- Environment of one `run`: the constructor arguments of
`PdfProcessingThread.__init__` together with the abstracted outcomes of
every external call made by `run`. -/
structure RunEnv where
  input_pdf_path : String
  output_directory : String
  /-- the `image_format` argument as supplied by the caller (line 17). -/
  image_format_arg : String
  /-- result of `os.path.exists(self.input_pdf_path)` (line 31). -/
  inputExists : Bool
  /-- result of `os.makedirs(self.output_directory, exist_ok=True)`
  (line 37): `ok` or the text of the raised `OSError`. -/
  makedirs : Except String Unit
  /-- result of `fitz.open` followed by `len(doc)` (lines 46-47): the page
  count, or the text of a raised exception (caught at line 83). -/
  openDoc : Except String Nat
  /-- outcome of the body of the loop iteration for page `i`. -/
  pageResult : Nat → PageResult
  /-- index of the first read of `_is_interruption_requested` that observes
  `True`; `none` when the flag is never set during the run. -/
  cancelAt : Option Nat

/-- Value of `self._is_interruption_requested` at the `n`-th read performed
by the worker.  Monotone in `n` by construction, reflecting that the flag
is only ever set, never cleared. -/
def RunEnv.cancelled (env : RunEnv) (n : Nat) : Bool :=
  match env.cancelAt with
  | none => false
  | some c => decide (c ≤ n)

/-- `self.image_format = image_format.lower()` (line 22). -/
def RunEnv.image_format (env : RunEnv) : String :=
  env.image_format_arg.toLower

/-- `output_filename = f"page_{i + 1}.{self.image_format}"` (line 72).
`fmt` is the already lower-cased stored format. -/
def outputFilename (fmt : String) (i : Nat) : String :=
  "page_" ++ toString (i + 1) ++ "." ++ fmt

/-- `error_detail = f"Page {i + 1}: {e_save}"` (line 77), rendering a
failure pair back to the exact Python string. -/
def errorDetail (p : Nat × String) : String :=
  "Page " ++ toString p.1 ++ ": " ++ p.2

/-- Success summary built at lines 91-93. -/
def successMsg (env : RunEnv) (st : LoopState) : String :=
  let base := "Successfully converted " ++ toString st.converted ++
    " page(s) to \x27" ++ env.output_directory ++ "\x27."
  if st.errors.isEmpty then base
  else base ++ "\nHowever, " ++ toString st.errors.length ++
    " page(s) could not be saved."

/-- Failure summary built at lines 97-99. -/
def noPagesMsg (st : LoopState) : String :=
  let base := "No pages were successfully converted."
  if st.errors.isEmpty then base
  else base ++ "\n" ++ toString st.errors.length ++
    " page(s) encountered errors during saving."

/-- The `if`/`elif` chain after the loop (lines 90-102).  Reaching here
means the `for` loop was exhausted; the flag is read again by the guards at
line 96 (read index `total`) and line 101 (read index `total + 1`). -/
def finalEvents (env : RunEnv) (total : Nat) (st : LoopState) : List Event :=
  if 0 < st.converted then
    [Event.finishedConversion (successMsg env st) true st.errors]
  else if decide (0 < total) && !env.cancelled total then
    [Event.finishedConversion (noPagesMsg st) false st.errors]
  else if !env.cancelled (total + 1) then
    [Event.finishedConversion "No pages were processed or an error occurred."
      false st.errors]
  else []

/-- The `for i in range(total_pages)` loop (lines 55-81), processing the
remaining page indices `l` from state `st`.  Returns the events emitted
from this point on together with the successful `pil_image.save` calls
(loop index paired with file name). -/
def runLoop (env : RunEnv) (total : Nat) :
    List Nat → LoopState → List Event × List (Nat × String)
  | [], st => (finalEvents env total st, [])
  | i :: rest, st =>
    if env.cancelled i then
      ([Event.finishedConversion "Conversion cancelled by user." false
        st.errors], [])
    else
      match env.pageResult i with
      | PageResult.fatal m =>
        ([Event.finishedConversion ("Error processing PDF with PyMuPDF: " ++ m)
          false st.errors], [])
      | PageResult.ok =>
        let r := runLoop env total rest ⟨st.converted + 1, st.errors⟩
        (Event.progressUpdate (i + 1) :: r.1,
          (i, outputFilename env.image_format i) :: r.2)
      | PageResult.saveErr m =>
        let r := runLoop env total rest ⟨st.converted, st.errors ++ [(i + 1, m)]⟩
        (Event.progressUpdate (i + 1) :: r.1, r.2)

/-- Observable trace of one `run`: the emitted signals in order, and the
files successfully written. -/
structure RunOutput where
  events : List Event
  writes : List (Nat × String)
deriving DecidableEq

/-- `PdfProcessingThread.run` (lines 28-102). -/
def run (env : RunEnv) : RunOutput :=
  if !env.inputExists then
    ⟨[Event.finishedConversion
        ("Error: Input PDF file not found:\n" ++ env.input_pdf_path)
        false []], []⟩
  else
    match env.makedirs with
    | Except.error e =>
      ⟨[Event.finishedConversion
          ("Error creating output directory \x27" ++ env.output_directory ++
            "\x27: " ++ e) false []], []⟩
    | Except.ok _ =>
      match env.openDoc with
      | Except.error e =>
        ⟨[Event.finishedConversion
            ("Error processing PDF with PyMuPDF: " ++ e) false []], []⟩
      | Except.ok total =>
        if total = 0 then
          ⟨[Event.finishedConversion
              "Error: The PDF file is empty or could not be read."
              false []], []⟩
        else
          let r := runLoop env total (List.range total) ⟨0, []⟩
          ⟨Event.totalPagesKnown total :: r.1, r.2⟩

/-- Mode passed to `Image.frombytes` (lines 63-66), as a function of
`pix.alpha`. -/
def pilImageMode (pixAlpha : Bool) : String :=
  if pixAlpha then "RGBA" else "RGB"

/-- Mode of the image actually handed to `pil_image.save`, after the
flattening step `if pil_image.mode == 'RGBA': pil_image =
pil_image.convert('RGB')` (lines 68-69). -/
def savedImageMode (pixAlpha : Bool) : String :=
  if pilImageMode pixAlpha = "RGBA" then "RGB" else pilImageMode pixAlpha

/-! ### Derived observers and specification-side recomputations -/

/-- Whether a `PageResult` is run-fatal. -/
def PageResult.isFatal : PageResult → Bool
  | PageResult.fatal _ => true
  | _ => false

/-- Whether an event is a `finished_conversion` emission. -/
def Event.isFinished : Event → Bool
  | Event.finishedConversion _ _ _ => true
  | _ => false

/-- Number of `finished_conversion` emissions in a trace. -/
def finishedCount (evs : List Event) : Nat :=
  (evs.filter Event.isFinished).length

/-- The `progress_update` values of a trace, in emission order. -/
def ticksOf (evs : List Event) : List Nat :=
  evs.filterMap fun e =>
    match e with
    | Event.progressUpdate n => some n
    | _ => none

/-- The `total_pages_known` values of a trace, in emission order. -/
def pageCountsOf (evs : List Event) : List Nat :=
  evs.filterMap fun e =>
    match e with
    | Event.totalPagesKnown n => some n
    | _ => none

/-- Failure list of the last event of a trace when that event is a
`finished_conversion`; `[]` otherwise. -/
def finalFailures (evs : List Event) : List (Nat × String) :=
  match evs.getLast? with
  | some (Event.finishedConversion _ _ e) => e
  | _ => []

/-- The `progress_update` event for page index `i` (line 81). -/
def pageTick (i : Nat) : Event :=
  Event.progressUpdate (i + 1)

/-- The write performed for page index `i`, when its save succeeds. -/
def pageWrite? (env : RunEnv) (i : Nat) : Option (Nat × String) :=
  match env.pageResult i with
  | PageResult.ok => some (i, outputFilename env.image_format i)
  | _ => none

/-- One step of the loop-state bookkeeping (lines 75 and 79). -/
def stepPage (env : RunEnv) (st : LoopState) (i : Nat) : LoopState :=
  match env.pageResult i with
  | PageResult.ok => ⟨st.converted + 1, st.errors⟩
  | PageResult.saveErr m => ⟨st.converted, st.errors ++ [(i + 1, m)]⟩
  | PageResult.fatal _ => st

/-- Loop state after processing the page indices `l` starting from `st`. -/
def foldState (env : RunEnv) (st : LoopState) (l : List Nat) : LoopState :=
  l.foldl (stepPage env) st

/-- Number of indices in `l` whose page saves successfully. -/
def listConv (env : RunEnv) : List Nat → Nat
  | [] => 0
  | i :: t =>
    (match env.pageResult i with
     | PageResult.ok => 1
     | _ => 0) + listConv env t

/-- Failure entries produced by the indices in `l`, in order. -/
def listErrs (env : RunEnv) : List Nat → List (Nat × String)
  | [] => []
  | i :: t =>
    (match env.pageResult i with
     | PageResult.saveErr m => [(i + 1, m)]
     | _ => []) ++ listErrs env t

/-- Number of pages among `0..k-1` whose save succeeds. -/
def convCount (env : RunEnv) (k : Nat) : Nat :=
  listConv env (List.range k)

/-- Failure entries accumulated over pages `0..k-1`, in page order. -/
def collectErrors (env : RunEnv) (k : Nat) : List (Nat × String) :=
  listErrs env (List.range k)

/-- A page index at which the loop neither honours a cancellation nor hits
a run-fatal exception (so it attempts the page and emits its tick). -/
def goodPage (env : RunEnv) (i : Nat) : Bool :=
  !env.cancelled i && !(env.pageResult i).isFatal

/-- Number of pages the loop attempts (tick emitted) in a run whose
document opened with `P` pages. -/
def attemptedCount (env : RunEnv) (P : Nat) : Nat :=
  ((List.range P).takeWhile (goodPage env)).length

/-! ### Structural lemmas about the loop -/

theorem runLoop_nil (env : RunEnv) (total : Nat) (st : LoopState) :
    runLoop env total [] st = (finalEvents env total st, []) := rfl

theorem foldState_cons (env : RunEnv) (st : LoopState) (i : Nat) (t : List Nat) :
    foldState env st (i :: t) = foldState env (stepPage env st i) t := rfl

theorem runLoop_cancel (env : RunEnv) (total i : Nat) (rest : List Nat)
    (st : LoopState) (hc : env.cancelled i = true) :
    runLoop env total (i :: rest) st =
      ([Event.finishedConversion "Conversion cancelled by user." false
        st.errors], []) := by
  simp [runLoop, hc]

theorem runLoop_fatal (env : RunEnv) (total i : Nat) (rest : List Nat)
    (st : LoopState) (m : String) (hc : env.cancelled i = false)
    (hp : env.pageResult i = PageResult.fatal m) :
    runLoop env total (i :: rest) st =
      ([Event.finishedConversion ("Error processing PDF with PyMuPDF: " ++ m)
        false st.errors], []) := by
  simp [runLoop, hc, hp]

theorem runLoop_ok (env : RunEnv) (total i : Nat) (rest : List Nat)
    (st : LoopState) (hc : env.cancelled i = false)
    (hp : env.pageResult i = PageResult.ok) :
    runLoop env total (i :: rest) st =
      (pageTick i ::
        (runLoop env total rest ⟨st.converted + 1, st.errors⟩).1,
       (i, outputFilename env.image_format i) ::
        (runLoop env total rest ⟨st.converted + 1, st.errors⟩).2) := by
  simp [runLoop, hc, hp, pageTick]

theorem runLoop_saveErr (env : RunEnv) (total i : Nat) (rest : List Nat)
    (st : LoopState) (m : String) (hc : env.cancelled i = false)
    (hp : env.pageResult i = PageResult.saveErr m) :
    runLoop env total (i :: rest) st =
      (pageTick i ::
        (runLoop env total rest ⟨st.converted, st.errors ++ [(i + 1, m)]⟩).1,
       (runLoop env total rest ⟨st.converted, st.errors ++ [(i + 1, m)]⟩).2) := by
  simp [runLoop, hc, hp, pageTick]

theorem goodPage_eq_true (env : RunEnv) (i : Nat) :
    goodPage env i = true ↔
      env.cancelled i = false ∧ (env.pageResult i).isFatal = false := by
  simp [goodPage]

theorem runLoop_clean (env : RunEnv) (total : Nat) (l : List Nat)
    (st : LoopState) (h : ∀ i ∈ l, goodPage env i = true) :
    runLoop env total l st =
      (l.map pageTick ++ finalEvents env total (foldState env st l),
       l.filterMap (pageWrite? env)) := by
  induction l generalizing st with
  | nil => simp [runLoop_nil, foldState]
  | cons i t ih =>
    obtain ⟨hc, hf⟩ := (goodPage_eq_true env i).mp (h i (List.mem_cons_self i t))
    have ht : ∀ j ∈ t, goodPage env j = true :=
      fun j hj => h j (List.mem_cons_of_mem _ hj)
    cases hp : env.pageResult i with
    | fatal m => rw [hp] at hf; simp [PageResult.isFatal] at hf
    | ok =>
      rw [runLoop_ok env total i t st hc hp, ih _ ht, foldState_cons]
      simp [stepPage, hp, pageWrite?, List.filterMap_cons]
    | saveErr m =>
      rw [runLoop_saveErr env total i t st m hc hp, ih _ ht, foldState_cons]
      simp [stepPage, hp, pageWrite?, List.filterMap_cons]

theorem runLoop_append (env : RunEnv) (total : Nat) (l₁ l₂ : List Nat)
    (st : LoopState) (h : ∀ i ∈ l₁, goodPage env i = true) :
    runLoop env total (l₁ ++ l₂) st =
      (l₁.map pageTick ++ (runLoop env total l₂ (foldState env st l₁)).1,
       l₁.filterMap (pageWrite? env) ++
        (runLoop env total l₂ (foldState env st l₁)).2) := by
  induction l₁ generalizing st with
  | nil => simp [foldState]
  | cons i t ih =>
    obtain ⟨hc, hf⟩ := (goodPage_eq_true env i).mp (h i (List.mem_cons_self i t))
    have ht : ∀ j ∈ t, goodPage env j = true :=
      fun j hj => h j (List.mem_cons_of_mem _ hj)
    cases hp : env.pageResult i with
    | fatal m => rw [hp] at hf; simp [PageResult.isFatal] at hf
    | ok =>
      rw [List.cons_append, runLoop_ok env total i (t ++ l₂) st hc hp,
        ih _ ht, foldState_cons]
      simp [stepPage, hp, pageWrite?, List.filterMap_cons]
    | saveErr m =>
      rw [List.cons_append, runLoop_saveErr env total i (t ++ l₂) st m hc hp,
        ih _ ht, foldState_cons]
      simp [stepPage, hp, pageWrite?, List.filterMap_cons]

theorem foldState_eq (env : RunEnv) (l : List Nat) (st : LoopState)
    (h : ∀ i ∈ l, (env.pageResult i).isFatal = false) :
    foldState env st l =
      ⟨st.converted + listConv env l, st.errors ++ listErrs env l⟩ := by
  induction l generalizing st with
  | nil => simp [foldState, listConv, listErrs]
  | cons i t ih =>
    have hf := h i (List.mem_cons_self i t)
    have ht : ∀ j ∈ t, (env.pageResult j).isFatal = false :=
      fun j hj => h j (List.mem_cons_of_mem _ hj)
    cases hp : env.pageResult i with
    | fatal m => rw [hp] at hf; simp [PageResult.isFatal] at hf
    | ok =>
      rw [foldState_cons, ih _ ht]
      simp [stepPage, hp, listConv, listErrs]
      omega
    | saveErr m =>
      rw [foldState_cons, ih _ ht]
      simp [stepPage, hp, listConv, listErrs]

theorem listConv_add_length (env : RunEnv) (l : List Nat)
    (h : ∀ i ∈ l, (env.pageResult i).isFatal = false) :
    listConv env l + (listErrs env l).length = l.length := by
  induction l with
  | nil => rfl
  | cons i t ih =>
    have hf := h i (List.mem_cons_self i t)
    have ht := fun j hj => h j (List.mem_cons_of_mem i hj)
    cases hp : env.pageResult i with
    | fatal m => rw [hp] at hf; simp [PageResult.isFatal] at hf
    | ok => simp [listConv, listErrs, hp]; rw [← ih ht]; omega
    | saveErr m => simp [listConv, listErrs, hp]; rw [← ih ht]; omega

theorem ticksOf_finalEvents (env : RunEnv) (total : Nat) (st : LoopState) :
    ticksOf (finalEvents env total st) = [] := by
  rw [finalEvents]
  split
  · rfl
  · split
    · rfl
    · split
      · rfl
      · rfl

theorem pageCountsOf_finalEvents (env : RunEnv) (total : Nat)
    (st : LoopState) : pageCountsOf (finalEvents env total st) = [] := by
  rw [finalEvents]
  split
  · rfl
  · split
    · rfl
    · split
      · rfl
      · rfl

theorem ticksOf_cons_tick (i : Nat) (evs : List Event) :
    ticksOf (pageTick i :: evs) = (i + 1) :: ticksOf evs := by
  simp [ticksOf, pageTick, List.filterMap_cons]

theorem pageCountsOf_cons_tick (i : Nat) (evs : List Event) :
    pageCountsOf (pageTick i :: evs) = pageCountsOf evs := by
  simp [pageCountsOf, pageTick, List.filterMap_cons]

theorem cancelled_false_of_ne_true (env : RunEnv) (i : Nat)
    (h : ¬env.cancelled i = true) : env.cancelled i = false := by
  revert h; cases env.cancelled i <;> simp

theorem ticksOf_runLoop (env : RunEnv) (total : Nat) (l : List Nat)
    (st : LoopState) :
    ticksOf (runLoop env total l st).1 =
      (l.takeWhile (goodPage env)).map (fun i => i + 1) := by
  induction l generalizing st with
  | nil => simpa [runLoop_nil] using ticksOf_finalEvents env total st
  | cons i t ih =>
    by_cases hc : env.cancelled i = true
    · rw [runLoop_cancel env total i t st hc,
        List.takeWhile_cons_of_neg (by simp [goodPage, hc])]
      rfl
    · have hc' := cancelled_false_of_ne_true env i hc
      cases hp : env.pageResult i with
      | fatal m =>
        rw [runLoop_fatal env total i t st m hc' hp,
          List.takeWhile_cons_of_neg
            (by simp [goodPage, hc', hp, PageResult.isFatal])]
        rfl
      | ok =>
        rw [runLoop_ok env total i t st hc' hp,
          List.takeWhile_cons_of_pos
            (by simp [goodPage, hc', hp, PageResult.isFatal]),
          ticksOf_cons_tick, ih]
        simp
      | saveErr m =>
        rw [runLoop_saveErr env total i t st m hc' hp,
          List.takeWhile_cons_of_pos
            (by simp [goodPage, hc', hp, PageResult.isFatal]),
          ticksOf_cons_tick, ih]
        simp

theorem pageCountsOf_runLoop (env : RunEnv) (total : Nat) (l : List Nat)
    (st : LoopState) : pageCountsOf (runLoop env total l st).1 = [] := by
  induction l generalizing st with
  | nil => simpa [runLoop_nil] using pageCountsOf_finalEvents env total st
  | cons i t ih =>
    by_cases hc : env.cancelled i = true
    · rw [runLoop_cancel env total i t st hc]; rfl
    · have hc' := cancelled_false_of_ne_true env i hc
      cases hp : env.pageResult i with
      | fatal m => rw [runLoop_fatal env total i t st m hc' hp]; rfl
      | ok => rw [runLoop_ok env total i t st hc' hp, pageCountsOf_cons_tick]
              exact ih _
      | saveErr m =>
        rw [runLoop_saveErr env total i t st m hc' hp, pageCountsOf_cons_tick]
        exact ih _

theorem run_open (env : RunEnv) (P : Nat) (h1 : env.inputExists = true)
    (h2 : env.makedirs = Except.ok ()) (h3 : env.openDoc = Except.ok P)
    (h4 : P ≠ 0) :
    run env =
      ⟨Event.totalPagesKnown P :: (runLoop env P (List.range P) ⟨0, []⟩).1,
       (runLoop env P (List.range P) ⟨0, []⟩).2⟩ := by
  simp [run, h1, h2, h3, h4]

theorem range_split (k P : Nat) (h : k < P) :
    List.range P = List.range k ++ k :: List.drop (k + 1) (List.range P) := by
  have h1 : List.take k (List.range P) = List.range k := by
    rw [List.take_range]; congr 1; omega
  have h2 : List.drop k (List.range P) =
      k :: List.drop (k + 1) (List.range P) := by
    rw [List.drop_eq_getElem_cons (by simpa using h)]
    simp
  conv_lhs => rw [← List.take_append_drop k (List.range P)]
  rw [h1, h2]

theorem takeWhile_eq_take_self {α : Type} (p : α → Bool) (l : List α) :
    l.takeWhile p = l.take (l.takeWhile p).length := by
  induction l with
  | nil => rfl
  | cons a t ih =>
    by_cases h : p a = true
    · rw [List.takeWhile_cons_of_pos h, List.length_cons,
        List.take_succ_cons, ← ih]
    · rw [List.takeWhile_cons_of_neg (by simp [h])]
      rfl

theorem takeWhile_append_of_good {α : Type} (p : α → Bool) :
    ∀ (k : Nat) (l : List α), (∀ a ∈ l.take k, p a = true) →
      l.takeWhile p = l.take k ++ (l.drop k).takeWhile p
  | 0, l, _ => by simp
  | k + 1, [], _ => by simp
  | k + 1, a :: t, h => by
    have ha : p a = true := h a (by rw [List.take_succ_cons]; exact List.mem_cons_self a _)
    rw [List.take_succ_cons, List.drop_succ_cons,
      List.takeWhile_cons_of_pos ha, List.cons_append]
    congr 1
    exact takeWhile_append_of_good p k t
      (fun b hb => h b (by rw [List.take_succ_cons]; exact List.mem_cons_of_mem a hb))

theorem cancelled_of_none (env : RunEnv) (h : env.cancelAt = none) (n : Nat) :
    env.cancelled n = false := by
  simp [RunEnv.cancelled, h]

theorem finalEvents_nocancel (env : RunEnv) (total : Nat) (st : LoopState)
    (htot : 0 < total) (hcan : env.cancelled total = false) :
    finalEvents env total st =
      [Event.finishedConversion
        (if 0 < st.converted then successMsg env st else noPagesMsg st)
        (decide (0 < st.converted)) st.errors] := by
  by_cases h : 0 < st.converted
  · simp [finalEvents, h]
  · simp [finalEvents, h, hcan, htot]

theorem filterMap_sublist_map {α β : Type} (f : α → Option β) (g : α → β)
    (l : List α) (h : ∀ a b, f a = some b → b = g a) :
    (l.filterMap f).Sublist (l.map g) := by
  induction l with
  | nil => simp
  | cons a t ih =>
    rw [List.filterMap_cons, List.map_cons]
    cases hf : f a with
    | none => exact ih.cons (g a)
    | some b => rw [h a b hf]; exact ih.cons₂ (g a)

theorem listErrs_map_fst (env : RunEnv) (l : List Nat) :
    (listErrs env l).map Prod.fst =
      l.filterMap fun i =>
        match env.pageResult i with
        | PageResult.saveErr _ => some (i + 1)
        | _ => none := by
  induction l with
  | nil => rfl
  | cons i t ih =>
    rw [List.filterMap_cons, listErrs]
    cases hp : env.pageResult i <;> simp [hp, ih]

theorem listErrs_range_pairwise (env : RunEnv) (k : Nat) :
    ((listErrs env (List.range k)).map Prod.fst).Pairwise (· < ·) := by
  rw [listErrs_map_fst]
  refine List.Pairwise.sublist
    (filterMap_sublist_map _ (fun i => i + 1) _ ?_) ?_
  · intro a b hab
    revert hab
    cases env.pageResult a <;> intro hab <;> simp_all
  · exact (List.pairwise_lt_range k).map _ (fun a b hab => by omega)

theorem mem_listErrs (env : RunEnv) (i : Nat) (m : String)
    (hp : env.pageResult i = PageResult.saveErr m) (l : List Nat)
    (hi : i ∈ l) : (i + 1, m) ∈ listErrs env l := by
  induction l with
  | nil => cases hi
  | cons j t ih =>
    rw [listErrs]
    rcases List.mem_cons.mp hi with hj | hj
    · subst hj; rw [hp]; exact List.mem_append_left _ (List.mem_singleton.mpr rfl)
    · exact List.mem_append_right _ (ih hj)

theorem listErrs_countP (env : RunEnv) (i : Nat) (m : String)
    (hp : env.pageResult i = PageResult.saveErr m) (l : List Nat) :
    (listErrs env l).countP (fun p => decide (p.1 = i + 1)) = l.count i := by
  induction l with
  | nil => rfl
  | cons j t ih =>
    rw [listErrs, List.countP_append, ih, List.count_cons]
    by_cases hij : j = i
    · subst hij
      rw [hp]
      simp [List.countP_cons]
      omega
    · have : (match env.pageResult j with
          | PageResult.saveErr m' => [(j + 1, m')]
          | _ => ([] : List (Nat × String))).countP
            (fun p : Nat × String => decide (p.1 = i + 1)) = 0 := by
        cases env.pageResult j
        all_goals simp [List.countP_cons]
        all_goals omega
      rw [this]
      simp [hij]

theorem writes_countP (env : RunEnv) (i : Nat)
    (hp : env.pageResult i = PageResult.ok) (l : List Nat) :
    (l.filterMap (pageWrite? env)).countP (fun w => decide (w.1 = i)) =
      l.count i := by
  induction l with
  | nil => rfl
  | cons j t ih =>
    rw [List.filterMap_cons, List.count_cons]
    by_cases hij : j = i
    · subst hij
      rw [show pageWrite? env j = some (j, outputFilename env.image_format j)
          from by simp [pageWrite?, hp]]
      rw [List.countP_cons, ih]
      simp
    · cases hq : env.pageResult j with
      | ok =>
        rw [show pageWrite? env j =
            some (j, outputFilename env.image_format j)
            from by simp [pageWrite?, hq]]
        rw [List.countP_cons, ih]
        simp [hij]
      | saveErr m =>
        rw [show pageWrite? env j = none from by simp [pageWrite?, hq], ih]
        simp [hij]
      | fatal m =>
        rw [show pageWrite? env j = none from by simp [pageWrite?, hq], ih]
        simp [hij]

theorem mem_writes (env : RunEnv) (i : Nat)
    (hp : env.pageResult i = PageResult.ok) (l : List Nat) (hi : i ∈ l) :
    (i, outputFilename env.image_format i) ∈ l.filterMap (pageWrite? env) :=
  List.mem_filterMap.mpr ⟨i, hi, by simp [pageWrite?, hp]⟩

theorem ticksOf_append (l₁ l₂ : List Event) :
    ticksOf (l₁ ++ l₂) = ticksOf l₁ ++ ticksOf l₂ := by
  simp [ticksOf]

theorem ticksOf_map_pageTick (l : List Nat) :
    ticksOf (l.map pageTick) = l.map (fun i => i + 1) := by
  induction l with
  | nil => rfl
  | cons i t ih => simp [ticksOf, pageTick, List.filterMap_cons] at ih ⊢; exact ih

theorem ticksOf_cons_tpk (P : Nat) (evs : List Event) :
    ticksOf (Event.totalPagesKnown P :: evs) = ticksOf evs := by
  simp [ticksOf, List.filterMap_cons]

theorem ticksOf_fin (msg : String) (b : Bool) (e : List (Nat × String)) :
    ticksOf [Event.finishedConversion msg b e] = [] := rfl

/-! ### Claims -/

/-- A run in which the document has one page, that page's save fails, and
the interruption flag becomes set between the loop-boundary check for the
page and the reads in the final `elif` guards (first read observing `True`
is read index 1). -/
def envC1 : RunEnv :=
  { input_pdf_path := "in.pdf"
    output_directory := "out"
    image_format_arg := "png"
    inputExists := true
    makedirs := Except.ok ()
    openDoc := Except.ok 1
    pageResult := fun _ => PageResult.saveErr "disk full"
    cancelAt := some 1 }

/-- Claim C1: for every run of `PdfProcessingThread.run`, the terminal
`finished_conversion` is emitted exactly once and last.  The code violates
this: when no page was converted and the cancellation flag is first
observed set by the guard at line 96 (after the loop exhausted all pages),
both `elif` guards at lines 96 and 101 are false and no
`finished_conversion` is emitted at all.  This theorem evaluates the run
on such an input: the trace ends after the progress tick, with zero
`finished_conversion` events. -/
theorem C1_no_terminal_event_on_late_cancel :
    (run envC1).events = [Event.totalPagesKnown 1, Event.progressUpdate 1] ∧
    finishedCount (run envC1).events = 0 := by
  constructor <;> rfl

/-- Claim C5: runs with a setup error (source missing, destination
uncreatable, or a zero-page document) emit exactly one event — a
`finished_conversion` with success `false` and an empty failure list — so
zero pages are attempted, no `progress_update` is emitted, and for a
missing source the terminal event precedes any `total_pages_known` (none
is ever emitted). -/
theorem C5_setup_errors (env : RunEnv) :
    (env.inputExists = false →
      (run env).events =
        [Event.finishedConversion
          ("Error: Input PDF file not found:\n" ++ env.input_pdf_path)
          false []]) ∧
    (∀ e, env.inputExists = true → env.makedirs = Except.error e →
      (run env).events =
        [Event.finishedConversion
          ("Error creating output directory \x27" ++ env.output_directory ++
            "\x27: " ++ e) false []]) ∧
    (env.inputExists = true → env.makedirs = Except.ok () →
      env.openDoc = Except.ok 0 →
      (run env).events =
        [Event.finishedConversion
          "Error: The PDF file is empty or could not be read."
          false []]) := by
  refine ⟨?_, ?_, ?_⟩
  · intro h
    simp [run, h]
  · intro e h1 h2
    simp [run, h1, h2]
  · intro h1 h2 h3
    simp [run, h1, h2, h3]

/-- A run whose source path does not exist. -/
def envC5 : RunEnv :=
  { input_pdf_path := "missing.pdf"
    output_directory := "out"
    image_format_arg := "png"
    inputExists := false
    makedirs := Except.ok ()
    openDoc := Except.ok 3
    pageResult := fun _ => PageResult.ok
    cancelAt := none }

theorem C5_setup_errors_witness :
    envC5.inputExists = false ∧
    (run envC5).events =
      [Event.finishedConversion
        ("Error: Input PDF file not found:\n" ++ envC5.input_pdf_path)
        false []] :=
  ⟨rfl, (C5_setup_errors envC5).1 rfl⟩

/-- Claim C9: whether or not the rasterized buffer carries an alpha
channel, the image handed to `pil_image.save` is in the opaque mode
`"RGB"`, never `"RGBA"`: an `RGBA` buffer is converted to `RGB` by the
flattening step at lines 68-69 before encoding. -/
theorem C9_alpha_always_flattened (pixAlpha : Bool) :
    savedImageMode pixAlpha = "RGB" ∧ savedImageMode pixAlpha ≠ "RGBA" := by
  cases pixAlpha <;> exact ⟨rfl, by decide⟩

/-- Claim C2: when the loop exhausts all `P ≥ 1` pages with no run-fatal
page error and the cancellation flag never set, the terminal outcome has
success `true` iff at least one page was converted, it carries the
accumulated failure list, its summary is the success summary when some
page converted and the "No pages were successfully converted." summary
otherwise, and when success with failures the summary appends the note of
how many pages could not be saved. -/
theorem C2_normal_termination_outcome (env : RunEnv) (P : Nat)
    (h1 : env.inputExists = true) (h2 : env.makedirs = Except.ok ())
    (h3 : env.openDoc = Except.ok P) (h4 : 1 ≤ P)
    (h5 : ∀ i, i < P → (env.pageResult i).isFatal = false)
    (h6 : env.cancelAt = none) :
    (run env).events.getLast? =
      some (Event.finishedConversion
        (if 0 < convCount env P then
           successMsg env ⟨convCount env P, collectErrors env P⟩
         else noPagesMsg ⟨convCount env P, collectErrors env P⟩)
        (decide (0 < convCount env P))
        (collectErrors env P)) ∧
    (0 < convCount env P → collectErrors env P ≠ [] →
      successMsg env ⟨convCount env P, collectErrors env P⟩ =
        ("Successfully converted " ++ toString (convCount env P) ++
          " page(s) to \x27" ++ env.output_directory ++ "\x27.") ++
        ("\nHowever, " ++ toString (collectErrors env P).length ++
          " page(s) could not be saved.")) := by
  have hcan := cancelled_of_none env h6
  have hgood : ∀ i ∈ List.range P, goodPage env i = true := by
    intro i hi
    rw [goodPage_eq_true]
    exact ⟨hcan i, h5 i (List.mem_range.mp hi)⟩
  have hst : foldState env ⟨0, []⟩ (List.range P) =
      ⟨convCount env P, collectErrors env P⟩ := by
    rw [foldState_eq env _ _ (fun i hi => h5 i (List.mem_range.mp hi))]
    simp [convCount, collectErrors]
  have hEv : (run env).events =
      Event.totalPagesKnown P ::
        ((List.range P).map pageTick ++
          [Event.finishedConversion
            (if 0 < convCount env P then
               successMsg env ⟨convCount env P, collectErrors env P⟩
             else noPagesMsg ⟨convCount env P, collectErrors env P⟩)
            (decide (0 < convCount env P))
            (collectErrors env P)]) := by
    rw [run_open env P h1 h2 h3 (by omega), runLoop_clean env P _ _ hgood,
      hst, finalEvents_nocancel env P _ (by omega) (hcan P)]
  constructor
  · rw [hEv, ← List.cons_append, List.getLast?_concat]
  · intro _ hne
    have hE : (collectErrors env P).isEmpty = false := by
      cases h' : collectErrors env P with
      | nil => exact absurd h' hne
      | cons a t => rfl
    simp only [successMsg, hE, Bool.false_eq_true, if_false,
      String.append_assoc]

/-- A normally terminating two-page run whose first page fails to save. -/
def envC2 : RunEnv :=
  { input_pdf_path := "in.pdf"
    output_directory := "out"
    image_format_arg := "PNG"
    inputExists := true
    makedirs := Except.ok ()
    openDoc := Except.ok 2
    pageResult := fun i =>
      if i = 0 then PageResult.saveErr "disk full" else PageResult.ok
    cancelAt := none }

theorem C2_normal_termination_outcome_witness :
    (1 ≤ 2 ∧ envC2.cancelAt = none) ∧
    ((run envC2).events.getLast? =
      some (Event.finishedConversion
        (if 0 < convCount envC2 2 then
           successMsg envC2 ⟨convCount envC2 2, collectErrors envC2 2⟩
         else noPagesMsg ⟨convCount envC2 2, collectErrors envC2 2⟩)
        (decide (0 < convCount envC2 2))
        (collectErrors envC2 2)) ∧
    (0 < convCount envC2 2 → collectErrors envC2 2 ≠ [] →
      successMsg envC2 ⟨convCount envC2 2, collectErrors envC2 2⟩ =
        ("Successfully converted " ++ toString (convCount envC2 2) ++
          " page(s) to \x27" ++ envC2.output_directory ++ "\x27.") ++
        ("\nHowever, " ++ toString (collectErrors envC2 2).length ++
          " page(s) could not be saved."))) :=
  ⟨⟨by decide, rfl⟩,
   C2_normal_termination_outcome envC2 2 rfl rfl rfl (by decide)
     (by decide) rfl⟩

/-- Claim C3: the cancellation flag is read only at the loop boundary
(one read per iteration, by construction of the embedding); when the read
after `k` attempted pages (`k < P`) first observes the flag set and no
earlier page was run-fatal, the run stops there: the trace is the page
count, the ticks `1..k`, and a terminal `finished_conversion` with
success `false`, the "Conversion cancelled by user." summary and the
failures accumulated so far — in particular no `progress_update`
greater than `k` is ever emitted. -/
theorem C3_cancellation_at_boundary (env : RunEnv) (P k : Nat)
    (h1 : env.inputExists = true) (h2 : env.makedirs = Except.ok ())
    (h3 : env.openDoc = Except.ok P) (hk : k < P)
    (hgood : ∀ i, i < k →
      env.cancelled i = false ∧ (env.pageResult i).isFatal = false)
    (hc : env.cancelled k = true) :
    (run env).events =
      Event.totalPagesKnown P ::
        ((List.range k).map pageTick ++
          [Event.finishedConversion "Conversion cancelled by user." false
            (collectErrors env k)]) ∧
    (∀ n, Event.progressUpdate n ∈ (run env).events → n ≤ k) := by
  have hgood' : ∀ i ∈ List.range k, goodPage env i = true := by
    intro i hi
    rw [goodPage_eq_true]
    exact hgood i (List.mem_range.mp hi)
  have hst : foldState env ⟨0, []⟩ (List.range k) =
      ⟨convCount env k, collectErrors env k⟩ := by
    rw [foldState_eq env _ _
      (fun i hi => (hgood i (List.mem_range.mp hi)).2)]
    simp [convCount, collectErrors]
  have hEv : (run env).events =
      Event.totalPagesKnown P ::
        ((List.range k).map pageTick ++
          [Event.finishedConversion "Conversion cancelled by user." false
            (collectErrors env k)]) := by
    rw [run_open env P h1 h2 h3 (by omega), range_split k P hk,
      runLoop_append env P _ _ _ hgood',
      runLoop_cancel env P k _ _ hc, hst]
  refine ⟨hEv, ?_⟩
  intro n hn
  rw [hEv] at hn
  simp only [List.mem_cons, List.mem_append, List.mem_map,
    List.mem_singleton, pageTick, List.mem_range] at hn
  rcases hn with h | ⟨i, hik, hin⟩ | h | h
  · cases h
  · cases hin
    omega
  · cases h
  · cases h

/-- A three-page run cancelled at the boundary check after one attempted
page, whose first page failed to save. -/
def envC3 : RunEnv :=
  { input_pdf_path := "in.pdf"
    output_directory := "out"
    image_format_arg := "png"
    inputExists := true
    makedirs := Except.ok ()
    openDoc := Except.ok 3
    pageResult := fun i =>
      if i = 0 then PageResult.saveErr "disk full" else PageResult.ok
    cancelAt := some 1 }

theorem C3_cancellation_at_boundary_witness :
    (1 < 3 ∧ envC3.cancelled 1 = true) ∧
    ((run envC3).events =
      Event.totalPagesKnown 3 ::
        ((List.range 1).map pageTick ++
          [Event.finishedConversion "Conversion cancelled by user." false
            (collectErrors envC3 1)]) ∧
    (∀ n, Event.progressUpdate n ∈ (run envC3).events → n ≤ 1)) :=
  ⟨⟨by decide, rfl⟩,
   C3_cancellation_at_boundary envC3 3 1 rfl rfl rfl (by decide)
     (by decide) rfl⟩

/-- Claim C7: a run-fatal exception raised while loading or rasterizing
page `f` (all earlier pages non-fatal, no cancellation up to that check)
is caught by the `except` clause at line 83 rather than propagating: the
run ends with a terminal `finished_conversion` carrying success `false`,
the descriptive "Error processing PDF with PyMuPDF: ..." summary and the
failure list accumulated so far, and no page after `f` is attempted (no
tick beyond `f`).  In the embedding `run` is a total function, reflecting
that every exception inside the `try` block is caught at the run level. -/
theorem C7_fatal_midrun_caught (env : RunEnv) (P f : Nat) (m : String)
    (h1 : env.inputExists = true) (h2 : env.makedirs = Except.ok ())
    (h3 : env.openDoc = Except.ok P) (hf : f < P)
    (hgood : ∀ i, i < f →
      env.cancelled i = false ∧ (env.pageResult i).isFatal = false)
    (hcf : env.cancelled f = false)
    (hpf : env.pageResult f = PageResult.fatal m) :
    (run env).events =
      Event.totalPagesKnown P ::
        ((List.range f).map pageTick ++
          [Event.finishedConversion
            ("Error processing PDF with PyMuPDF: " ++ m) false
            (collectErrors env f)]) := by
  have hgood' : ∀ i ∈ List.range f, goodPage env i = true := by
    intro i hi
    rw [goodPage_eq_true]
    exact hgood i (List.mem_range.mp hi)
  have hst : foldState env ⟨0, []⟩ (List.range f) =
      ⟨convCount env f, collectErrors env f⟩ := by
    rw [foldState_eq env _ _
      (fun i hi => (hgood i (List.mem_range.mp hi)).2)]
    simp [convCount, collectErrors]
  rw [run_open env P h1 h2 h3 (by omega), range_split f P hf,
    runLoop_append env P _ _ _ hgood',
    runLoop_fatal env P f _ _ m hcf hpf, hst]

/-- A three-page run where page 2 (index 1) raises a run-fatal rendering
error after page 1 failed to save. -/
def envC7 : RunEnv :=
  { input_pdf_path := "in.pdf"
    output_directory := "out"
    image_format_arg := "png"
    inputExists := true
    makedirs := Except.ok ()
    openDoc := Except.ok 3
    pageResult := fun i =>
      if i = 0 then PageResult.saveErr "disk full"
      else PageResult.fatal "cannot load page"
    cancelAt := none }

/-- Claim C4: in a run that reaches page `i` and where that page's
`pil_image.save` raises (no run-fatal page, no cancellation), the failure
is recorded exactly once as the pair of the 1-based page number `i + 1`
and the error text, the loop continues — every page still gets its tick,
through page `P` — and the terminal event carries the accumulated list
containing that entry: the single-page failure never ends the run and is
never escalated to a run-fatal error. -/
theorem C4_save_failure_recorded_once (env : RunEnv) (P i : Nat) (m : String)
    (h1 : env.inputExists = true) (h2 : env.makedirs = Except.ok ())
    (h3 : env.openDoc = Except.ok P) (hi : i < P)
    (h5 : ∀ j, j < P → (env.pageResult j).isFatal = false)
    (h6 : env.cancelAt = none)
    (hp : env.pageResult i = PageResult.saveErr m) :
    ticksOf (run env).events = (List.range P).map (fun j => j + 1) ∧
    (collectErrors env P).countP
      (fun p : Nat × String => decide (p.1 = i + 1)) = 1 ∧
    (i + 1, m) ∈ collectErrors env P ∧
    finalFailures (run env).events = collectErrors env P := by
  have hcan := cancelled_of_none env h6
  have hgood : ∀ j ∈ List.range P, goodPage env j = true := by
    intro j hj
    rw [goodPage_eq_true]
    exact ⟨hcan j, h5 j (List.mem_range.mp hj)⟩
  have hst : foldState env ⟨0, []⟩ (List.range P) =
      ⟨convCount env P, collectErrors env P⟩ := by
    rw [foldState_eq env _ _ (fun j hj => h5 j (List.mem_range.mp hj))]
    simp [convCount, collectErrors]
  have hEv : (run env).events =
      Event.totalPagesKnown P ::
        ((List.range P).map pageTick ++
          finalEvents env P ⟨convCount env P, collectErrors env P⟩) := by
    rw [run_open env P h1 h2 h3 (by omega), runLoop_clean env P _ _ hgood,
      hst]
  have hFin := finalEvents_nocancel env P
    ⟨convCount env P, collectErrors env P⟩ (by omega) (hcan P)
  refine ⟨?_, ?_, ?_, ?_⟩
  · rw [hEv, hFin, ticksOf_cons_tpk, ticksOf_append, ticksOf_map_pageTick,
      ticksOf_fin, List.append_nil]
  · have hcnt := listErrs_countP env i m hp (List.range P)
    rw [List.count_eq_one_of_mem (List.nodup_range P)
      (List.mem_range.mpr hi)] at hcnt
    exact hcnt
  · exact mem_listErrs env i m hp _ (List.mem_range.mpr hi)
  · rw [hEv, hFin]
    unfold finalFailures
    rw [← List.cons_append, List.getLast?_concat]

/-- A normally terminating two-page run whose first page fails to save and
whose second page is saved. -/
def envC4 : RunEnv :=
  { input_pdf_path := "in.pdf"
    output_directory := "out"
    image_format_arg := "png"
    inputExists := true
    makedirs := Except.ok ()
    openDoc := Except.ok 2
    pageResult := fun i =>
      if i = 0 then PageResult.saveErr "disk full" else PageResult.ok
    cancelAt := none }

theorem C4_save_failure_recorded_once_witness :
    (0 < 2 ∧ envC4.pageResult 0 = PageResult.saveErr "disk full") ∧
    (ticksOf (run envC4).events = (List.range 2).map (fun j => j + 1) ∧
     (collectErrors envC4 2).countP
       (fun p : Nat × String => decide (p.1 = 0 + 1)) = 1 ∧
     (0 + 1, "disk full") ∈ collectErrors envC4 2 ∧
     finalFailures (run envC4).events = collectErrors envC4 2) :=
  ⟨⟨by decide, rfl⟩,
   C4_save_failure_recorded_once envC4 2 0 "disk full" rfl rfl rfl
     (by decide) (by decide) rfl rfl⟩

/-- Claim C8: in a run that reaches page `i` and saves it successfully,
exactly one file is written for that page, and its name is
`page_<i+1>.<ext>` with `<ext>` the lower-cased caller-supplied format
string (the lower-casing at line 22 applies to every format argument). -/
theorem C8_output_file_naming (env : RunEnv) (P i : Nat)
    (h1 : env.inputExists = true) (h2 : env.makedirs = Except.ok ())
    (h3 : env.openDoc = Except.ok P) (hi : i < P)
    (h5 : ∀ j, j < P → (env.pageResult j).isFatal = false)
    (h6 : env.cancelAt = none)
    (hp : env.pageResult i = PageResult.ok) :
    (run env).writes.countP (fun w : Nat × String => decide (w.1 = i)) = 1 ∧
    (i, "page_" ++ toString (i + 1) ++ "." ++ env.image_format_arg.toLower) ∈
      (run env).writes := by
  have hcan := cancelled_of_none env h6
  have hgood : ∀ j ∈ List.range P, goodPage env j = true := by
    intro j hj
    rw [goodPage_eq_true]
    exact ⟨hcan j, h5 j (List.mem_range.mp hj)⟩
  have hW : (run env).writes = (List.range P).filterMap (pageWrite? env) := by
    rw [run_open env P h1 h2 h3 (by omega), runLoop_clean env P _ _ hgood]
  constructor
  · rw [hW, writes_countP env i hp]
    exact List.count_eq_one_of_mem (List.nodup_range P) (List.mem_range.mpr hi)
  · rw [hW]
    have hm := mem_writes env i hp (List.range P) (List.mem_range.mpr hi)
    simpa [outputFilename, RunEnv.image_format] using hm

/-- A one-page run with an upper-case requested format. -/
def envC8 : RunEnv :=
  { input_pdf_path := "in.pdf"
    output_directory := "out"
    image_format_arg := "PNG"
    inputExists := true
    makedirs := Except.ok ()
    openDoc := Except.ok 1
    pageResult := fun _ => PageResult.ok
    cancelAt := none }

theorem C8_output_file_naming_witness :
    (0 < 1 ∧ envC8.pageResult 0 = PageResult.ok) ∧
    ((run envC8).writes.countP
       (fun w : Nat × String => decide (w.1 = 0)) = 1 ∧
     (0, "page_" ++ toString (0 + 1) ++ "." ++
        envC8.image_format_arg.toLower) ∈ (run envC8).writes) :=
  ⟨⟨by decide, rfl⟩,
   C8_output_file_naming envC8 1 0 rfl rfl rfl (by decide) (by decide)
     rfl rfl⟩

theorem takeWhile_goodPage_range (env : RunEnv) (P : Nat) :
    (List.range P).takeWhile (goodPage env) =
      List.range (attemptedCount env P) := by
  have hle : attemptedCount env P ≤ P := by
    have h := takeWhile_eq_take_self (goodPage env) (List.range P)
    have hl := congrArg List.length h
    rw [List.length_take, List.length_range] at hl
    exact le_of_eq_of_le hl (Nat.min_le_right _ _)
  conv_lhs => rw [takeWhile_eq_take_self (goodPage env) (List.range P)]
  rw [List.take_range]
  show List.range (min (attemptedCount env P) P) = _
  congr 1
  exact Nat.min_eq_left hle

theorem pageCountsOf_cons_tpk (P : Nat) (evs : List Event) :
    pageCountsOf (Event.totalPagesKnown P :: evs) =
      P :: pageCountsOf evs := by
  simp [pageCountsOf, List.filterMap_cons]

/-- Claim C6: in a run whose document opens with `P ≥ 1` pages,
`total_pages_known` is emitted exactly once, with value `P`, as the very
first event (hence before any `progress_update`); the `progress_update`
values are exactly `1, 2, ..., A` in order — strictly increasing, gapless,
one per attempted page (saved or recorded as a save failure) — where `A`
is the number of pages attempted before the run ends. -/
theorem C6_page_count_then_gapless_ticks (env : RunEnv) (P : Nat)
    (h1 : env.inputExists = true) (h2 : env.makedirs = Except.ok ())
    (h3 : env.openDoc = Except.ok P) (h4 : 1 ≤ P) :
    pageCountsOf (run env).events = [P] ∧
    (run env).events.head? = some (Event.totalPagesKnown P) ∧
    ticksOf (run env).events =
      (List.range (attemptedCount env P)).map (fun i => i + 1) := by
  have hEv : (run env).events =
      Event.totalPagesKnown P ::
        (runLoop env P (List.range P) ⟨0, []⟩).1 := by
    rw [run_open env P h1 h2 h3 (by omega)]
  refine ⟨?_, ?_, ?_⟩
  · rw [hEv, pageCountsOf_cons_tpk, pageCountsOf_runLoop]
  · rw [hEv]; rfl
  · rw [hEv, ticksOf_cons_tpk, ticksOf_runLoop, takeWhile_goodPage_range]

/-- A three-page run whose second page raises a run-fatal rendering
error, so only one page is attempted. -/
def envC6 : RunEnv :=
  { input_pdf_path := "in.pdf"
    output_directory := "out"
    image_format_arg := "png"
    inputExists := true
    makedirs := Except.ok ()
    openDoc := Except.ok 3
    pageResult := fun i =>
      if i = 1 then PageResult.fatal "render failed" else PageResult.ok
    cancelAt := none }

theorem C6_page_count_then_gapless_ticks_witness :
    (1 ≤ 3) ∧
    (pageCountsOf (run envC6).events = [3] ∧
     (run envC6).events.head? = some (Event.totalPagesKnown 3) ∧
     ticksOf (run envC6).events =
       (List.range (attemptedCount envC6 3)).map (fun i => i + 1)) :=
  ⟨by decide,
   C6_page_count_then_gapless_ticks envC6 3 rfl rfl rfl (by decide)⟩

/-- Claim C10: at the loop boundary reached after `k` attempted pages
(no cancellation or run-fatal error among them), the count of converted
pages plus the length of the accumulated failure list equals `k` — the
value of the most recent `progress_update`, the first `k` ticks being
exactly `1..k` — and the failure entries carry strictly increasing page
numbers. -/
theorem C10_loop_accounting_invariant (env : RunEnv) (P k : Nat)
    (h1 : env.inputExists = true) (h2 : env.makedirs = Except.ok ())
    (h3 : env.openDoc = Except.ok P) (h4 : 1 ≤ P) (hk : k ≤ P)
    (hgood : ∀ i, i < k →
      env.cancelled i = false ∧ (env.pageResult i).isFatal = false) :
    (foldState env ⟨0, []⟩ (List.range k)).converted +
      (foldState env ⟨0, []⟩ (List.range k)).errors.length = k ∧
    ((foldState env ⟨0, []⟩ (List.range k)).errors.map
      Prod.fst).Pairwise (· < ·) ∧
    (ticksOf (run env).events).take k =
      (List.range k).map (fun i => i + 1) := by
  have hnf : ∀ i ∈ List.range k, (env.pageResult i).isFatal = false :=
    fun i hi => (hgood i (List.mem_range.mp hi)).2
  have hst := foldState_eq env (List.range k) ⟨0, []⟩ hnf
  refine ⟨?_, ?_, ?_⟩
  · simp only [hst, Nat.zero_add, List.nil_append]
    rw [listConv_add_length env _ hnf, List.length_range]
  · simp only [hst, List.nil_append]
    exact listErrs_range_pairwise env k
  · have hEv : (run env).events =
        Event.totalPagesKnown P ::
          (runLoop env P (List.range P) ⟨0, []⟩).1 := by
      rw [run_open env P h1 h2 h3 (by omega)]
    rw [hEv, ticksOf_cons_tpk, ticksOf_runLoop]
    have htk : List.take k (List.range P) = List.range k := by
      rw [List.take_range]; congr 1; omega
    have hgd : ∀ a ∈ (List.range P).take k, goodPage env a = true := by
      rw [htk]
      intro a ha
      rw [goodPage_eq_true]
      exact hgood a (List.mem_range.mp ha)
    rw [takeWhile_append_of_good (goodPage env) k (List.range P) hgd, htk,
      List.map_append]
    exact List.take_left' (by simp)

/-- A three-page run whose first page fails to save, observed at the
boundary after two attempted pages. -/
def envC10 : RunEnv :=
  { input_pdf_path := "in.pdf"
    output_directory := "out"
    image_format_arg := "png"
    inputExists := true
    makedirs := Except.ok ()
    openDoc := Except.ok 3
    pageResult := fun i =>
      if i = 0 then PageResult.saveErr "disk full" else PageResult.ok
    cancelAt := none }

theorem C10_loop_accounting_invariant_witness :
    (2 ≤ 3 ∧ envC10.cancelAt = none) ∧
    ((foldState envC10 ⟨0, []⟩ (List.range 2)).converted +
       (foldState envC10 ⟨0, []⟩ (List.range 2)).errors.length = 2 ∧
     ((foldState envC10 ⟨0, []⟩ (List.range 2)).errors.map
       Prod.fst).Pairwise (· < ·) ∧
     (ticksOf (run envC10).events).take 2 =
       (List.range 2).map (fun i => i + 1)) :=
  ⟨⟨by decide, rfl⟩,
   C10_loop_accounting_invariant envC10 3 2 rfl rfl rfl (by decide)
     (by decide) (by decide)⟩

theorem C7_fatal_midrun_caught_witness :
    (envC7.pageResult 1 = PageResult.fatal "cannot load page") ∧
    (run envC7).events =
      Event.totalPagesKnown 3 ::
        ((List.range 1).map pageTick ++
          [Event.finishedConversion
            ("Error processing PDF with PyMuPDF: " ++ "cannot load page")
            false (collectErrors envC7 1)]) :=
  ⟨rfl,
   C7_fatal_midrun_caught envC7 3 1 "cannot load page" rfl rfl rfl
     (by decide) (by decide) (by decide) rfl⟩

end PDFtoImage
